import Mathlib

/-!
Shallow embedding of the core logic of the sandbox SDK (Python package
`sandbox_sdk`): the ignore-pattern matcher and directory walker
(`sandbox_sdk/utils.py`), the permission-preset registry and policy composer
(`sandbox_sdk/presets.py`), the rule data model (`sandbox_sdk/types.py`), and
the provisioning orchestration `Sandbox.from_local`
(`sandbox_sdk/sandbox.py`), together with theorems settling the spec claims
about them.

Python strings are modelled as Lean `String` (operated on through their
`List Char` data), machine integers as `Int`/`Nat` (Python ints are
unbounded, so no wrap-around modelling is needed), raised exceptions as
`Except String` / `Option` results, and the process-global `PRESETS` table as
an explicitly threaded association list.
-/

namespace SandboxSDK

/-! ### Character-list string primitives

Python `str` operations used by the source, modelled over `String.data`. -/

/-- `pre.isPrefixOf s` over char lists; models Python `str.startswith`. -/
def charPrefix : List Char → List Char → Bool
  | [], _ => true
  | _ :: _, [] => false
  | a :: as, b :: bs => (a == b) && charPrefix as bs

/-- Models Python `s.startswith(pre)`. -/
def strStartsWith (s pre : String) : Bool :=
  charPrefix pre.data s.data

/-- Models Python `s.endswith(suf)`. -/
def strEndsWith (s suf : String) : Bool :=
  charPrefix suf.data.reverse s.data.reverse

/-- Models Python `needle in hay` (substring test). -/
def charInfix (needle : List Char) : List Char → Bool
  | [] => charPrefix needle []
  | c :: t => charPrefix needle (c :: t) || charInfix needle t

/-- Split a char list on a separator character; models Python `s.split(sep)`
for a one-character separator. -/
def splitChar (c : Char) : List Char → List (List Char)
  | [] => [[]]
  | x :: xs =>
    let r := splitChar c xs
    if x == c then [] :: r
    else
      match r with
      | [] => [[x]]
      | h :: t => (x :: h) :: t

/-- Models Python `s.strip()` (default whitespace stripping). -/
def stripChars (l : List Char) : List Char :=
  ((l.dropWhile Char.isWhitespace).reverse.dropWhile Char.isWhitespace).reverse

/-- Models Python `s.strip()` on `String`. -/
def pyStrip (s : String) : String :=
  ⟨stripChars s.data⟩

/-- Models Python `os.path.basename` for forward-slash relative paths:
the text after the last `/` (empty if the path ends in `/`). -/
def basename (p : String) : String :=
  ⟨(splitChar '/' p.data).getLastD []⟩

/-! ### `fnmatch` embedding

`sandbox_sdk/utils.py` matches ignore patterns with Python's
`fnmatch.fnmatch`, which (on POSIX, where `os.path.normcase` is the
identity) compiles the pattern via `fnmatch.translate` to a regex matched
against the whole name:
  `*` → `.*` (any characters, `/` included), `?` → `.` (any one character),
  `[...]` → a regex character class (leading `!` negates, a `]` in first
  position is a literal member, `a-b` is a range), an unterminated `[` is a
  literal `[`.
The pattern is first lexed to tokens, then matched structurally; `*` matches
iff the remaining tokens match some suffix of the remaining text. -/

inductive GlobToken where
  | star : GlobToken
  | qmark : GlobToken
  | lit : Char → GlobToken
  | cls : Bool → List (Char × Char) → GlobToken
deriving DecidableEq, Repr

/-- Scan up to the closing `]` of a character class; returns the class body
and the rest of the pattern, or `none` when the class is unterminated. -/
def splitClose : List Char → Option (List Char × List Char)
  | [] => Option.none
  | ']' :: rest => some ([], rest)
  | c :: rest => (splitClose rest).map (fun pr => (c :: pr.1, pr.2))

/-- Class body to members: `a-b` is a range, anything else a literal
(a `-` in first or last position is literal), as in the regex class
`fnmatch.translate` produces. -/
def classMembers : List Char → List (Char × Char)
  | a :: '-' :: b :: rest => (a, b) :: classMembers rest
  | a :: rest => (a, a) :: classMembers rest
  | [] => []

/-- Parse a character class at the position right after `[`:
an optional leading `!` negates, a `]` immediately after that is a literal
member, and the body runs to the next `]`. `none` means the class is
unterminated and the `[` is a literal. -/
def parseClass (t : List Char) : Option (Bool × List (Char × Char) × List Char) :=
  let p := match t with
    | '!' :: r => (true, r)
    | _ => (false, t)
  let pieces := match p.2 with
    | ']' :: r => (splitClose r).map (fun pr => (']' :: pr.1, pr.2))
    | l => splitClose l
  match pieces with
  | Option.none => Option.none
  | some (stuff, rest) => some (p.1, classMembers stuff, rest)

/-- Character-class membership test (ranges are inclusive; an inverted range
like `z-a` matches nothing, and `neg` flips the result). -/
def inClass (neg : Bool) (mem : List (Char × Char)) (d : Char) : Bool :=
  let m := mem.any (fun r => decide (r.1 ≤ d) && decide (d ≤ r.2))
  if neg then !m else m

/-- Fuelled lexer from pattern text to glob tokens, mirroring
`fnmatch.translate`'s scan. Every step consumes at least one character, so
fuel `pat.length` (see `lexGlob`) never runs out. -/
def lexGlobF : Nat → List Char → List GlobToken
  | 0, _ => []
  | _, [] => []
  | f + 1, '*' :: t => GlobToken.star :: lexGlobF f t
  | f + 1, '?' :: t => GlobToken.qmark :: lexGlobF f t
  | f + 1, '[' :: t =>
    (match parseClass t with
     | Option.none => GlobToken.lit '[' :: lexGlobF f t
     | some (neg, mem, rest) => GlobToken.cls neg mem :: lexGlobF f rest)
  | f + 1, c :: t => GlobToken.lit c :: lexGlobF f t

/-- Lex a glob pattern into tokens. -/
def lexGlob (pat : List Char) : List GlobToken :=
  lexGlobF pat.length pat

/-- Full-text token matching (the regex `fnmatch.translate` builds is
anchored with `\Z`, so the whole text must be consumed). A `star` matches
iff the remaining tokens match some suffix of the text. -/
def matchTokens : List GlobToken → List Char → Bool
  | [], s => s.isEmpty
  | GlobToken.star :: ts, s => s.tails.any (fun t => matchTokens ts t)
  | GlobToken.qmark :: ts, s =>
    (match s with
     | [] => false
     | _ :: cs => matchTokens ts cs)
  | GlobToken.lit c :: ts, s =>
    (match s with
     | [] => false
     | d :: cs => (d == c) && matchTokens ts cs)
  | GlobToken.cls neg mem :: ts, s =>
    (match s with
     | [] => false
     | d :: cs => inClass neg mem d && matchTokens ts cs)

/-- Models Python `fnmatch.fnmatch(name, pat)` on POSIX
(`os.path.normcase` is the identity there, so matching is case-sensitive). -/
def pyFnmatch (name pat : String) : Bool :=
  matchTokens (lexGlob pat.data) name.data

/-! ### `sandbox_sdk/utils.py` -/

/-- `DEFAULT_IGNORE_PATTERNS` from `utils.py`, verbatim. -/
def DEFAULT_IGNORE_PATTERNS : List String :=
  [".git", ".git/**",
   "__pycache__", "__pycache__/**",
   "*.pyc", "*.pyo",
   ".DS_Store", "Thumbs.db",
   "node_modules", "node_modules/**",
   ".venv", ".venv/**",
   "venv", "venv/**",
   ".env",
   "*.egg-info", "*.egg-info/**",
   ".tox", ".tox/**",
   ".pytest_cache", ".pytest_cache/**",
   ".mypy_cache", ".mypy_cache/**",
   ".ruff_cache", ".ruff_cache/**"]

/-- `parse_ignore_file` from `utils.py`, on the file's lines (reading the
file from disk, and the missing-file case that returns `[]`, live outside
the embedding): each line is stripped, empty lines and lines starting with
`#` are skipped, every other stripped line is kept verbatim. The function is
total, so parsing a file containing negated (`!`) lines cannot raise. -/
def parse_ignore_lines (lines : List String) : List String :=
  (lines.map pyStrip).filter (fun l => !(l == "") && !(strStartsWith l "#"))

/-- `_normalize_pattern` from `utils.py`: strip one leading `/`, map a
pattern starting with `!` to the empty string (negation is not supported),
strip one trailing `/`. -/
def normalize_pattern (p : String) : String :=
  let p1 := if strStartsWith p "/" then ⟨p.data.drop 1⟩ else p
  if strStartsWith p1 "!" then ""
  else if strEndsWith p1 "/" then ⟨p1.data.dropLast⟩ else p1

/-- `_should_ignore` from `utils.py`. The `os.sep` → `/` replacement is the
identity on POSIX, so it is not modelled. An empty normalized pattern is
skipped. Each pattern is tried against the full relative path, then against
its basename; the source's third check (repeating the full-path `fnmatch`
when the pattern contains `**`) is reproduced even though it is redundant.
The `isDir` argument is accepted and ignored, exactly as in the source. -/
def should_ignore (relPath : String) (patterns : List String)
    (isDir : Bool := false) : Bool :=
  patterns.any (fun pat =>
    let normalized := normalize_pattern pat
    if normalized == "" then false
    else
      pyFnmatch relPath normalized
      || pyFnmatch (basename relPath) normalized
      || (charInfix ['*', '*'] normalized.data && pyFnmatch relPath normalized))

/-- One filesystem entry as yielded by `Path.rglob("*")` in
`walk_directory`: its path relative to the walk root (with `/` separators),
whether it is a directory, its content and size for files, and a `readable`
flag standing for the source's best-effort skips (`OSError` from `stat`,
`IOError`/`PermissionError` from `read_bytes`). -/
structure FSEntry where
  relPath : String
  isDir : Bool
  content : String
  size : Nat
  readable : Bool := true
deriving DecidableEq, Repr

/-- Models `PurePath.is_relative_to` for the relative, `/`-separated paths
the walker compares: `p` equals `d` or lies strictly below it. -/
def isRelativeTo (p d : String) : Bool :=
  (p == d) || charPrefix (d.data ++ ['/']) p.data

/-- The `for current_path in root_path.rglob("*")` loop of `walk_directory`,
over the entry sequence in `rglob` order (a directory is enumerated before
its descendants), threading the `ignored_dirs` set as a list:
a directory matching an ignore pattern is recorded and yields nothing; a
file is skipped when an already-recorded ignored directory is an ancestor,
when it matches an ignore pattern itself, when it exceeds `maxSize`, or when
it is unreadable; otherwise it is yielded with its content. -/
def walkLoop (patterns : List String) (maxSize : Nat) :
    List String → List FSEntry → List (String × String)
  | _, [] => []
  | igs, e :: rest =>
    if e.isDir then
      walkLoop patterns maxSize
        (if should_ignore e.relPath patterns true then e.relPath :: igs else igs) rest
    else if igs.any (fun d => isRelativeTo e.relPath d) then
      walkLoop patterns maxSize igs rest
    else if should_ignore e.relPath patterns false then
      walkLoop patterns maxSize igs rest
    else if !e.readable then
      walkLoop patterns maxSize igs rest
    else if maxSize < e.size then
      walkLoop patterns maxSize igs rest
    else
      (e.relPath, e.content) :: walkLoop patterns maxSize igs rest

/-- `walk_directory` from `utils.py`, over the `rglob` entry sequence of the
root: the ignore-pattern list is the default patterns (when enabled), then
the caller's patterns, then the parsed lines of a `.gitignore` and a
`.sandboxignore` found at the root; files are then walked by `walkLoop`.
The default `max_file_size` is 50 MB as in the source. -/
def walk_directory (entries : List FSEntry)
    (ignorePatterns : Option (List String) := Option.none)
    (includeDefaults : Bool := true)
    (maxFileSize : Nat := 50 * 1024 * 1024) : List (String × String) :=
  let patterns :=
    (if includeDefaults then DEFAULT_IGNORE_PATTERNS else [])
      ++ ignorePatterns.getD []
      ++ ([".gitignore", ".sandboxignore"].flatMap (fun f =>
            match entries.find? (fun e => e.relPath == f && !e.isDir) with
            | some e => parse_ignore_lines ((splitChar '\n' e.content.data).map (fun l => ⟨l⟩))
            | Option.none => []))
  walkLoop patterns maxFileSize [] entries

/-! ### Spec-side segment matcher (for the refinement comparison of C5)

`spec.md` §4.1 step 4 asks for shell-glob *segment* semantics: `*` must not
cross a `/` boundary while `**` may. -/

/-- Modelled from the spec (§4.1 step 4): match pattern segments against
path segments, where a `**` segment may absorb any number of path segments
and any other segment must glob-match exactly one path segment (segments
contain no `/`, so a `*` inside one cannot cross a boundary). -/
def segMatch : List String → List String → Bool
  | [], ss => ss.isEmpty
  | p :: ps, ss =>
    if p == "**" then ss.tails.any (fun t => segMatch ps t)
    else
      match ss with
      | [] => false
      | s :: st => pyFnmatch s p && segMatch ps st

/-- Modelled from the spec (§4.1 step 4): segment-aware glob matching of a
whole relative path, for comparison against the code's `fnmatch`-based
matcher. -/
def spec_segment_matches (path pat : String) : Bool :=
  segMatch ((splitChar '/' pat.data).map (fun l => ⟨l⟩))
    ((splitChar '/' path.data).map (fun l => ⟨l⟩))

/-! ### `sandbox_sdk/types.py` -/

/-- `Permission` enum: `none | view | read | write`. -/
inductive Permission where
  | none : Permission
  | view : Permission
  | read : Permission
  | write : Permission
deriving DecidableEq, Repr

/-- `Permission(value)` construction from its string value; `Option.none`
models the `ValueError` Python raises for an unknown value. -/
def Permission.ofString : String → Option Permission
  | "none" => some Permission.none
  | "view" => some Permission.view
  | "read" => some Permission.read
  | "write" => some Permission.write
  | _ => Option.none

/-- `PatternType` enum: `glob | directory | file`. -/
inductive PatternType where
  | glob : PatternType
  | directory : PatternType
  | file : PatternType
deriving DecidableEq, Repr

/-- `PatternType(value)` construction from its string value. -/
def PatternType.ofString : String → Option PatternType
  | "glob" => some PatternType.glob
  | "directory" => some PatternType.directory
  | "file" => some PatternType.file
  | _ => Option.none

/-- The `PermissionRule` dataclass (defaults as in the source). -/
structure PermissionRule where
  pattern : String
  permission : Permission := Permission.read
  type : PatternType := PatternType.glob
  priority : Int := 0
deriving DecidableEq, Repr

/-! ### `sandbox_sdk/presets.py` -/

/-- One loosely-typed rule dictionary as stored in `PRESETS`
(`Dict[str, str]`): `pattern` and `permission` are required keys, `type` and
`priority` optional (`Option.none` models a missing key); priorities are
stored as strings in the source literals. -/
structure RuleDict where
  pattern : String
  permission : String
  type : Option String := Option.none
  priority : Option String := Option.none
deriving DecidableEq, Repr

/-- The process-global `PRESETS : Dict[str, List[Dict[str, str]]]` table,
modelled as an insertion-ordered association list and threaded explicitly
through the module functions. -/
abbrev Registry := List (String × List RuleDict)

/-- The built-in `PRESETS` value from `presets.py`, verbatim. -/
def PRESETS : Registry :=
  [("agent-safe",
    [⟨"**/*", "read", Option.none, some "0"⟩,
     ⟨"/output/**", "write", Option.none, some "10"⟩,
     ⟨"/tmp/**", "write", Option.none, some "10"⟩,
     ⟨"**/.env*", "none", Option.none, some "100"⟩,
     ⟨"**/secrets/**", "none", Option.none, some "100"⟩,
     ⟨"**/*.key", "none", Option.none, some "100"⟩,
     ⟨"**/*.pem", "none", Option.none, some "100"⟩,
     ⟨"**/credentials*", "none", Option.none, some "100"⟩,
     ⟨"**/.git/**", "none", Option.none, some "50"⟩]),
   ("read-only",
    [⟨"**/*", "read", Option.none, some "0"⟩]),
   ("full-access",
    [⟨"**/*", "write", Option.none, some "0"⟩]),
   ("development",
    [⟨"**/*", "write", Option.none, some "0"⟩,
     ⟨"**/.env*", "none", Option.none, some "100"⟩,
     ⟨"**/secrets/**", "none", Option.none, some "100"⟩,
     ⟨"**/*.key", "none", Option.none, some "100"⟩,
     ⟨"**/*.pem", "none", Option.none, some "100"⟩]),
   ("view-only",
    [⟨"**/*", "view", Option.none, some "0"⟩])]

/-- Decimal digit parsing for `int(s)` on the priority strings; `Option.none`
models the `ValueError` for a non-numeric string. -/
def digitsToNat (l : List Char) : Option Nat :=
  if l.isEmpty then Option.none
  else
    l.foldl (fun acc c =>
      match acc with
      | Option.none => Option.none
      | some n => if c.isDigit then some (n * 10 + (c.toNat - 48)) else Option.none)
      (some 0)

/-- Models Python `int(s)` for an optional-sign decimal string. -/
def pyIntOfString (s : String) : Option Int :=
  match s.data with
  | '-' :: rest => (digitsToNat rest).map (fun n => -(n : Int))
  | l => (digitsToNat l).map (fun n => (n : Int))

/-- Models `int(rule.get("priority", 0))`: a missing key gives `0`, a
present string value is parsed with `int`. -/
def pyIntOpt : Option String → Option Int
  | Option.none => some 0
  | some s => pyIntOfString s

/-- The rule-dict → `PermissionRule` conversion performed inside
`get_preset`'s list comprehension: `Permission(rule["permission"])`,
`PatternType(rule.get("type", "glob"))`, `int(rule.get("priority", 0))`.
`Option.none` models the `ValueError` any of these may raise. -/
def toPermissionRule (d : RuleDict) : Option PermissionRule := do
  let perm ← Permission.ofString d.permission
  let ty ← PatternType.ofString (d.type.getD "glob")
  let pri ← pyIntOpt d.priority
  pure ⟨d.pattern, perm, ty, pri⟩

/-- Convert a stored dict list to `PermissionRule`s (the body of
`get_preset`'s comprehension over a preset's dicts). -/
def rulesOfDicts (ds : List RuleDict) : Except String (List PermissionRule) :=
  match ds.mapM toPermissionRule with
  | Option.none => Except.error "invalid rule description"
  | some rs => Except.ok rs

/-- Error message of `get_preset`/`get_preset_dicts` for an unknown name
(the source also enumerates the sorted known names, not modelled). -/
def unknownPresetMsg (name : String) : String :=
  "Unknown preset " ++ name

/-- `get_preset` from `presets.py`: look the name up in `PRESETS` and build
a fresh list of fresh `PermissionRule` objects from the stored dicts;
`Except.error` models the raised `ValueError`s. -/
def get_preset (reg : Registry) (name : String) : Except String (List PermissionRule) :=
  match List.lookup name reg with
  | Option.none => Except.error (unknownPresetMsg name)
  | some ds => rulesOfDicts ds

/-- `get_preset_dicts` from `presets.py`: the stored dict list itself
(`.copy()` — a fresh list value holding the same dicts). -/
def get_preset_dicts (reg : Registry) (name : String) : Except String (List RuleDict) :=
  match List.lookup name reg with
  | Option.none => Except.error (unknownPresetMsg name)
  | some ds => Except.ok ds

/-- An item of `extend_preset`'s `additions`/`overrides` lists
(`Union[PermissionRule, Dict]`): either an already-built rule or a
loosely-typed dict (caller dicts carry integer priorities, as at the call
sites; a missing `priority` key defaults to 0 inside `to_rule`). -/
inductive RuleInput where
  | rule : PermissionRule → RuleInput
  | dict : String → String → Option String → Option Int → RuleInput
deriving DecidableEq, Repr

/-- The inner `to_rule` of `extend_preset`. -/
def to_rule : RuleInput → Option PermissionRule
  | RuleInput.rule r => some r
  | RuleInput.dict pat perm ty pri => do
    let p ← Permission.ofString perm
    let t ← PatternType.ofString (ty.getD "glob")
    pure ⟨pat, p, t, pri.getD 0⟩

/-- `max(r.priority for r in rules) if rules else 0`. -/
def max_priority : List PermissionRule → Int
  | [] => 0
  | r :: rs => rs.foldl (fun m x => max m x.priority) r.priority

/-- The per-override priority adjustment of `extend_preset`: a stated
priority at most `maxP` is replaced by `maxP + 100`, a larger one is kept. -/
def boostOverride (maxP : Int) (r : PermissionRule) : PermissionRule :=
  if r.priority ≤ maxP then { r with priority := maxP + 100 } else r

/-- `extend_preset` from `presets.py`: base preset rules, then additions
verbatim, then each override with its priority boosted above the maximum
priority of the rules present before the override batch. -/
def extend_preset (reg : Registry) (base : String)
    (additions : List RuleInput := []) (overrides : List RuleInput := []) :
    Except String (List PermissionRule) :=
  match get_preset reg base with
  | Except.error e => Except.error e
  | Except.ok baseRules =>
    match additions.mapM to_rule with
    | Option.none => Except.error "invalid rule description"
    | some addRules =>
      match overrides.mapM to_rule with
      | Option.none => Except.error "invalid rule description"
      | some ovRules =>
        let rules := baseRules ++ addRules
        Except.ok (rules ++ ovRules.map (boostOverride (max_priority rules)))

/-- `extend_preset` as a transformer of the global `PRESETS` state: the
function body never assigns to `PRESETS` (it only appends to the fresh list
`get_preset` built), so the table after the call is the table before it. -/
def extend_preset_global (reg : Registry) (base : String)
    (additions : List RuleInput := []) (overrides : List RuleInput := []) :
    Except String (List PermissionRule) × Registry :=
  (extend_preset reg base additions overrides, reg)

/-- Error message of `register_preset` for a duplicate name. -/
def alreadyExistsMsg (name : String) : String :=
  "Preset " ++ name ++ " already exists. Use a different name."

/-- `register_preset` from `presets.py`: a duplicate name raises
(`Except.error`, never an overwrite); otherwise the table gains the new
entry. The updated table is returned as the new global state. -/
def register_preset (reg : Registry) (name : String) (rules : List RuleDict) :
    Except String Registry :=
  if (List.lookup name reg).isSome then Except.error (alreadyExistsMsg name)
  else Except.ok (reg ++ [(name, rules)])

/-! ### `sandbox_sdk/sandbox.py` — `Sandbox.from_local`

The external service is abstracted as a `ClientEnv` giving each remote
call's outcome; `from_local` returns the Python result (or the propagated
exception) together with the ordered trace of client calls it performed.
Path validation, owner-id and codebase-name generation are outside the
modelled fragment (the environment's `createCodebase` outcome stands for
that call with whatever names were generated). -/

/-- The `Codebase` dataclass (only the claim-relevant `id` field is
modelled). -/
structure Codebase where
  id : String
deriving DecidableEq, Repr

/-- The `Sandbox` info dataclass (only the claim-relevant `id` field is
modelled). -/
structure SandboxInfo where
  id : String
deriving DecidableEq, Repr

/-- One client call performed by `from_local`, in order. -/
inductive Action where
  | createCodebase : Action
  | uploadFile : String → Action
  | deleteCodebase : String → Action
  | createSandboxCall : List RuleDict → List RuleInput → Action
  | startSandboxCall : String → Action
  | closeClient : Action
deriving DecidableEq, Repr

/-- Outcomes of the external client's calls. -/
structure ClientEnv where
  createCodebase : Except String Codebase
  uploadFile : String → Except String Unit
  createSandbox : Except String SandboxInfo
  startSandbox : String → Except String SandboxInfo

/-- The upload loop of `from_local`: upload each walked entry in order,
stopping at (and propagating) the first failure. -/
def uploadAll (env : ClientEnv) : List (String × String) → Except String Unit × List Action
  | [] => (Except.ok (), [])
  | (p, _) :: rest =>
    match env.uploadFile p with
    | Except.error e => (Except.error e, [Action.uploadFile p])
    | Except.ok _ =>
      let r := uploadAll env rest
      (r.1, Action.uploadFile p :: r.2)

/-- `Sandbox.from_local` from `sandbox.py` (the success path and every
failure path of its `try`/`except` structure):
1. create the codebase — on failure the outer handler closes the client and
   re-raises;
2. upload every entry of `walk_directory` — on failure the outer handler
   closes the client and re-raises (the codebase is NOT deleted on this
   path);
3. build `perm_rules` from `get_preset_dicts(preset)` plus the caller's
   `permissions` — an unknown preset deletes the codebase, closes the
   client and re-raises (the outer handler closes again);
4. create the sandbox, then (when `autoStart`) start it — on failure the
   outer handler closes the client and re-raises.
The default of `preset` is `"agent-safe"`, as in the source signature. -/
def from_local (env : ClientEnv) (entries : List FSEntry)
    (preset : String := "agent-safe")
    (permissions : List RuleInput := [])
    (ignorePatterns : Option (List String) := Option.none)
    (autoStart : Bool := true)
    (reg : Registry := PRESETS) : Except String SandboxInfo × List Action :=
  match env.createCodebase with
  | Except.error e => (Except.error e, [Action.createCodebase, Action.closeClient])
  | Except.ok cb =>
    match uploadAll env (walk_directory entries ignorePatterns) with
    | (Except.error e, uacts) =>
      (Except.error e, Action.createCodebase :: uacts ++ [Action.closeClient])
    | (Except.ok _, uacts) =>
      match get_preset_dicts reg preset with
      | Except.error e =>
        (Except.error e, Action.createCodebase :: uacts
          ++ [Action.deleteCodebase cb.id, Action.closeClient, Action.closeClient])
      | Except.ok pdicts =>
        match env.createSandbox with
        | Except.error e =>
          (Except.error e, Action.createCodebase :: uacts
            ++ [Action.createSandboxCall pdicts permissions, Action.closeClient])
        | Except.ok sb =>
          if autoStart then
            match env.startSandbox sb.id with
            | Except.error e =>
              (Except.error e, Action.createCodebase :: uacts
                ++ [Action.createSandboxCall pdicts permissions,
                    Action.startSandboxCall sb.id, Action.closeClient])
            | Except.ok sb2 =>
              (Except.ok sb2, Action.createCodebase :: uacts
                ++ [Action.createSandboxCall pdicts permissions,
                    Action.startSandboxCall sb.id])
          else
            (Except.ok sb, Action.createCodebase :: uacts
              ++ [Action.createSandboxCall pdicts permissions])

/-- An all-successful client environment for concrete runs. -/
def envOk : ClientEnv :=
  { createCodebase := Except.ok ⟨"cb-1"⟩
    uploadFile := fun _ => Except.ok ()
    createSandbox := Except.ok ⟨"sb-1"⟩
    startSandbox := fun i => Except.ok ⟨i⟩ }

/-- A client environment whose file uploads all fail. -/
def envUploadFail : ClientEnv :=
  { createCodebase := Except.ok ⟨"cb-1"⟩
    uploadFile := fun _ => Except.error "upload failed"
    createSandbox := Except.ok ⟨"sb-1"⟩
    startSandbox := fun i => Except.ok ⟨i⟩ }

/-! ### Helper lemmas -/

theorem foldl_max_ge_init (l : List PermissionRule) (init : Int) :
    init ≤ l.foldl (fun m x => max m x.priority) init := by
  induction l generalizing init with
  | nil => exact le_refl _
  | cons x xs ih =>
    simp only [List.foldl_cons]
    exact le_trans (le_max_left _ _) (ih (max init x.priority))

theorem foldl_max_ge_mem (l : List PermissionRule) :
    ∀ (init : Int) (r : PermissionRule), r ∈ l →
      r.priority ≤ l.foldl (fun m x => max m x.priority) init := by
  induction l with
  | nil =>
    intro init r hr
    cases hr
  | cons x xs ih =>
    intro init r hr
    simp only [List.foldl_cons]
    rcases List.mem_cons.mp hr with h | h
    · subst h
      exact le_trans (le_max_right _ _) (foldl_max_ge_init xs (max init r.priority))
    · exact ih (max init x.priority) r h

theorem mem_le_max_priority (rs : List PermissionRule) (r : PermissionRule)
    (hr : r ∈ rs) : r.priority ≤ max_priority rs := by
  cases rs with
  | nil => cases hr
  | cons x xs =>
    rcases List.mem_cons.mp hr with h | h
    · subst h
      exact foldl_max_ge_init xs r.priority
    · exact foldl_max_ge_mem xs x.priority r h

theorem boostOverride_gt (maxP : Int) (r : PermissionRule) :
    maxP < (boostOverride maxP r).priority := by
  unfold boostOverride
  by_cases h : r.priority ≤ maxP
  · rw [if_pos h]
    show maxP < maxP + 100
    omega
  · rw [if_neg h]
    omega

theorem lookup_append_of_none {β : Type} (reg l : List (String × β)) (name : String)
    (h : List.lookup name reg = Option.none) :
    List.lookup name (reg ++ l) = List.lookup name l := by
  induction reg with
  | nil => rfl
  | cons e rest ih =>
    simp only [List.lookup] at h ⊢
    cases hk : (name == e.1) with
    | true => simp [hk] at h
    | false =>
      simp only [hk] at h ⊢
      exact ih h

theorem walkLoop_avoids_ignored (patterns : List String) (maxSize : Nat)
    (entries : List FSEntry) :
    ∀ (igs : List String) (x : String), x ∈ igs →
      ∀ p c, (p, c) ∈ walkLoop patterns maxSize igs entries → isRelativeTo p x = false := by
  induction entries with
  | nil =>
    intro igs x _ p c hm
    simp [walkLoop] at hm
  | cons e rest ih =>
    intro igs x hx p c hm
    rw [walkLoop] at hm
    by_cases hdir : e.isDir = true
    · rw [if_pos hdir] at hm
      by_cases hig : should_ignore e.relPath patterns true = true
      · rw [if_pos hig] at hm
        exact ih (e.relPath :: igs) x (List.mem_cons_of_mem _ hx) p c hm
      · rw [if_neg hig] at hm
        exact ih igs x hx p c hm
    · rw [if_neg hdir] at hm
      by_cases hany : (igs.any (fun d => isRelativeTo e.relPath d)) = true
      · rw [if_pos hany] at hm
        exact ih igs x hx p c hm
      · rw [if_neg hany] at hm
        by_cases hsi : should_ignore e.relPath patterns false = true
        · rw [if_pos hsi] at hm
          exact ih igs x hx p c hm
        · rw [if_neg hsi] at hm
          by_cases hrd : (!e.readable) = true
          · rw [if_pos hrd] at hm
            exact ih igs x hx p c hm
          · rw [if_neg hrd] at hm
            by_cases hsz : maxSize < e.size
            · rw [if_pos hsz] at hm
              exact ih igs x hx p c hm
            · rw [if_neg hsz] at hm
              rcases List.mem_cons.mp hm with h | h
              · have hp : p = e.relPath := congrArg Prod.fst h
                subst hp
                refine Bool.eq_false_iff.mpr ?_
                intro ht
                exact hany (List.any_eq_true.mpr ⟨x, hx, ht⟩)
              · exact ih igs x hx p c h

theorem normalize_negated (p : String) (h : strStartsWith p "!" = true) :
    normalize_pattern p = "" := by
  obtain ⟨t, hd⟩ : ∃ t, p.data = '!' :: t := by
    cases hp : p.data with
    | nil => simp [strStartsWith, hp, charPrefix] at h
    | cons c cs =>
      simp only [strStartsWith, hp, charPrefix, Bool.and_eq_true, beq_iff_eq] at h
      exact ⟨cs, by rw [h.1]⟩
  simp [normalize_pattern, strStartsWith, hd, charPrefix]

theorem should_ignore_cons_negated (path p : String) (ps : List String) (b : Bool)
    (h : strStartsWith p "!" = true) :
    should_ignore path (p :: ps) b = should_ignore path ps b := by
  simp [should_ignore, normalize_negated p h]

theorem any_filter_negated (f : String → Bool)
    (hf : ∀ q, strStartsWith q "!" = true → f q = false) :
    ∀ qs : List String, qs.any f = (qs.filter (fun q => !(strStartsWith q "!"))).any f := by
  intro qs
  induction qs with
  | nil => rfl
  | cons q rest ih =>
    cases hq : strStartsWith q "!" with
    | true =>
      rw [List.any_cons, hf q hq, Bool.false_or, List.filter_cons]
      simp only [hq, Bool.not_true]
      rw [if_neg Bool.false_ne_true]
      exact ih
    | false =>
      rw [List.any_cons, List.filter_cons]
      simp only [hq, Bool.not_false]
      rw [if_true, List.any_cons, ih]

theorem should_ignore_filter_negated (path : String) (b : Bool) (qs : List String) :
    should_ignore path qs b
      = should_ignore path (qs.filter (fun q => !(strStartsWith q "!"))) b := by
  unfold should_ignore
  apply any_filter_negated
  intro q hq
  simp [normalize_negated q hq]

/-! ### Claim theorems -/

/-- C1: for every registered base preset, every additions list and every
overrides list (whose items convert without error), every rule the composer
appends for the overrides list has a final priority strictly greater than
the priority of every rule coming from the base preset or the additions
list. -/
theorem extend_preset_overrides_outrank (reg : Registry) (base : String)
    (additions overrides : List RuleInput)
    (baseRules addRules ovRules : List PermissionRule)
    (hb : get_preset reg base = Except.ok baseRules)
    (ha : additions.mapM to_rule = some addRules)
    (ho : overrides.mapM to_rule = some ovRules) :
    extend_preset reg base additions overrides
      = Except.ok ((baseRules ++ addRules)
          ++ ovRules.map (boostOverride (max_priority (baseRules ++ addRules))))
    ∧ ∀ r ∈ ovRules.map (boostOverride (max_priority (baseRules ++ addRules))),
        ∀ b ∈ baseRules ++ addRules, b.priority < r.priority := by
  constructor
  · unfold extend_preset
    rw [hb, ha, ho]
  · intro r hr b hbm
    rcases List.mem_map.mp hr with ⟨r0, _, hr0⟩
    subst hr0
    exact lt_of_le_of_lt (mem_le_max_priority _ b hbm) (boostOverride_gt _ r0)

/-- C1 witness: composing "read-only" with one addition and one override at
stated priority 5, the base rule's priority is strictly below the override's
final priority. -/
theorem extend_preset_overrides_outrank_witness :
    (⟨"**/*", Permission.read, PatternType.glob, 0⟩ : PermissionRule).priority
      < (boostOverride
          (max_priority ([⟨"**/*", Permission.read, PatternType.glob, 0⟩]
            ++ [⟨"/output/**", Permission.write, PatternType.glob, 0⟩]))
          ⟨"/src/**", Permission.write, PatternType.glob, 5⟩).priority :=
  (extend_preset_overrides_outrank PRESETS "read-only"
      [RuleInput.dict "/output/**" "write" Option.none Option.none]
      [RuleInput.dict "/src/**" "write" Option.none (some 5)]
      [⟨"**/*", Permission.read, PatternType.glob, 0⟩]
      [⟨"/output/**", Permission.write, PatternType.glob, 0⟩]
      [⟨"/src/**", Permission.write, PatternType.glob, 5⟩]
      rfl rfl rfl).2
    (boostOverride
      (max_priority ([⟨"**/*", Permission.read, PatternType.glob, 0⟩]
        ++ [⟨"/output/**", Permission.write, PatternType.glob, 0⟩]))
      ⟨"/src/**", Permission.write, PatternType.glob, 5⟩)
    (by decide)
    ⟨"**/*", Permission.read, PatternType.glob, 0⟩
    (by decide)

/-- C2 counterexample: composing "read-only" with the single override
`{pattern: "/src/**", permission: "write", priority: 5}` stores the override
at priority 5 (its stated priority, which exceeds the maximum 0), not at
`max(existing) + 100 = 100` as the claim states: no rule for `/src/**` with
priority 100 appears in the output. -/
theorem extend_preset_spec_example_cex :
    extend_preset PRESETS "read-only" []
        [RuleInput.dict "/src/**" "write" Option.none (some 5)]
      = Except.ok [⟨"**/*", Permission.read, PatternType.glob, 0⟩,
                   ⟨"/src/**", Permission.write, PatternType.glob, 5⟩]
    ∧ (([⟨"**/*", Permission.read, PatternType.glob, 0⟩,
         ⟨"/src/**", Permission.write, PatternType.glob, 5⟩] : List PermissionRule).any
        (fun r => r.pattern == "/src/**" && r.priority == 100)) = false :=
  ⟨rfl, rfl⟩

/-- C2 amended: the boost applies only when the stated priority is at most
the existing maximum; here 5 > 0, so the override keeps its stated priority
5, which is still strictly greater than the base rule's priority 0. -/
theorem extend_preset_spec_example_amended :
    extend_preset PRESETS "read-only" []
        [RuleInput.dict "/src/**" "write" Option.none (some 5)]
      = Except.ok [⟨"**/*", Permission.read, PatternType.glob, 0⟩,
                   ⟨"/src/**", Permission.write, PatternType.glob, 5⟩]
    ∧ (⟨"**/*", Permission.read, PatternType.glob, 0⟩ : PermissionRule).priority
        < (⟨"/src/**", Permission.write, PatternType.glob, 5⟩ : PermissionRule).priority :=
  ⟨rfl, by decide⟩

/-- C3: `Sandbox.from_local` called without a `preset` argument provisions
the sandbox with the "agent-safe" preset's rules — not the "view-only"
rules the spec (and the repository's own tests) require as the default. -/
theorem from_local_default_preset_agent_safe :
    from_local envOk [⟨"main.py", false, "x", 1, true⟩]
      = (Except.ok ⟨"sb-1"⟩,
         [Action.createCodebase, Action.uploadFile "main.py",
          Action.createSandboxCall ((List.lookup "agent-safe" PRESETS).getD []) [],
          Action.startSandboxCall "sb-1"])
    ∧ get_preset_dicts PRESETS "view-only"
        = Except.ok [⟨"**/*", "view", Option.none, some "0"⟩]
    ∧ ((List.lookup "agent-safe" PRESETS).getD [] : List RuleDict)
        ≠ [⟨"**/*", "view", Option.none, some "0"⟩] :=
  ⟨rfl, rfl, by decide⟩

/-- C4: when the upload of a walked file fails, `Sandbox.from_local` closes
the client and propagates the original upload error, but never calls
`delete_codebase` for the just-created codebase — the rollback the claim
describes is absent from this sync implementation. -/
theorem from_local_upload_failure_no_codebase_delete :
    from_local envUploadFail [⟨"main.py", false, "x", 1, true⟩]
      = (Except.error "upload failed",
         [Action.createCodebase, Action.uploadFile "main.py", Action.closeClient])
    ∧ ((from_local envUploadFail [⟨"main.py", false, "x", 1, true⟩]).2.all
        (fun a => match a with
          | Action.deleteCodebase _ => false
          | _ => true)) = true :=
  ⟨rfl, rfl⟩

/-- C5 counterexample: the matcher delegates to `fnmatch`, whose `*` does
cross `/` boundaries: pattern `a*b` matches path `a/b` (and so
`_should_ignore` ignores it), while the spec's segment semantics reject that
match. -/
theorem star_crosses_slash_cex :
    should_ignore "a/b" ["a*b"] false = true
    ∧ pyFnmatch "a/b" "a*b" = true
    ∧ spec_segment_matches "a/b" "a*b" = false :=
  ⟨rfl, rfl, rfl⟩

/-- C5 amended: the matcher uses Python `fnmatch` semantics, in which `**`
may match across `/` boundaries (as claimed) but a single `*` may as well:
`**` lexes to two star tokens and matching treats a doubled star exactly
like a single one. -/
theorem fnmatch_star_semantics_amended :
    (∀ (ts : List GlobToken) (s : List Char),
        matchTokens (GlobToken.star :: GlobToken.star :: ts) s
          = matchTokens (GlobToken.star :: ts) s)
    ∧ lexGlob "**".data = [GlobToken.star, GlobToken.star]
    ∧ pyFnmatch "a/b" "a*b" = true
    ∧ pyFnmatch "a/x/y/b" "a**b" = true := by
  refine ⟨?_, rfl, rfl, rfl⟩
  intro ts s
  show (s.tails.any fun t => matchTokens (GlobToken.star :: ts) t)
      = s.tails.any fun t => matchTokens ts t
  simp only [matchTokens]
  rw [Bool.eq_iff_iff]
  simp only [List.any_eq_true, List.mem_tails]
  constructor
  · rintro ⟨t, hts, u, hut, hu⟩
    exact ⟨u, hut.trans hts, hu⟩
  · rintro ⟨t, hts, ht⟩
    exact ⟨s, List.suffix_refl s, t, hts, ht⟩

/-- C6: walking the tree `a/.git/x`, `a/keep.txt`, `a/node_modules/y.js`
with the default ignore set yields exactly `a/keep.txt`; and in general,
once the walk visits a directory whose relative path matches an ignore
pattern, no file yielded from that point on lies under that directory. -/
theorem walk_directory_prunes_ignored_dirs :
    walk_directory
        [⟨"a", true, "", 0, true⟩, ⟨"a/.git", true, "", 0, true⟩,
         ⟨"a/.git/x", false, "X", 1, true⟩, ⟨"a/keep.txt", false, "K", 1, true⟩,
         ⟨"a/node_modules", true, "", 0, true⟩,
         ⟨"a/node_modules/y.js", false, "Y", 1, true⟩]
      = [("a/keep.txt", "K")]
    ∧ ∀ (patterns : List String) (maxSize : Nat) (igs : List String)
        (d : FSEntry) (post : List FSEntry) (p c : String),
        d.isDir = true → should_ignore d.relPath patterns true = true →
        (p, c) ∈ walkLoop patterns maxSize igs (d :: post) →
        isRelativeTo p d.relPath = false := by
  constructor
  · rfl
  · intro patterns maxSize igs d post p c hdir hig hm
    rw [walkLoop, if_pos hdir, if_pos hig] at hm
    exact walkLoop_avoids_ignored patterns maxSize post (d.relPath :: igs) d.relPath
      (List.mem_cons_self _ _) p c hm

/-- C6 witness: with pattern `.git`, the ignored directory `a/.git` is
visited first and the file yielded afterwards (`b.txt`) is not under it. -/
theorem walk_directory_prunes_ignored_dirs_witness :
    isRelativeTo "b.txt" "a/.git" = false :=
  walk_directory_prunes_ignored_dirs.2 [".git"] 100 [] ⟨"a/.git", true, "", 0, true⟩
    [⟨"b.txt", false, "B", 1, true⟩] "b.txt" "B" rfl (by decide) (by decide)

/-- C7 counterexample: the "agent-safe" preset carries the
`**/credentials*` → none carve-out at priority 100, but the "development"
preset contains no rule for `**/credentials*` at all, so the two presets do
not share the same secret carve-outs. -/
theorem development_missing_credentials_cex :
    (((get_preset PRESETS "agent-safe").toOption.getD []).any
        (fun r => r.pattern == "**/credentials*" && r.priority == 100
          && r.permission == Permission.none)) = true
    ∧ (((get_preset PRESETS "development").toOption.getD []).all
        (fun r => !(r.pattern == "**/credentials*"))) = true :=
  ⟨rfl, rfl⟩

/-- C7 amended: the "development" preset contains the env-file, secrets-
directory, key-file and cert-file carve-outs at priority 100 with permission
none — each also present in "agent-safe" — but it lacks the
`**/credentials*` carve-out that "agent-safe" has. -/
theorem development_carveouts_amended :
    get_preset PRESETS "development"
      = Except.ok [⟨"**/*", Permission.write, PatternType.glob, 0⟩,
                   ⟨"**/.env*", Permission.none, PatternType.glob, 100⟩,
                   ⟨"**/secrets/**", Permission.none, PatternType.glob, 100⟩,
                   ⟨"**/*.key", Permission.none, PatternType.glob, 100⟩,
                   ⟨"**/*.pem", Permission.none, PatternType.glob, 100⟩]
    ∧ (([⟨"**/.env*", Permission.none, PatternType.glob, 100⟩,
         ⟨"**/secrets/**", Permission.none, PatternType.glob, 100⟩,
         ⟨"**/*.key", Permission.none, PatternType.glob, 100⟩,
         ⟨"**/*.pem", Permission.none, PatternType.glob, 100⟩] : List PermissionRule).all
        (fun r => decide (r ∈ ((get_preset PRESETS "agent-safe").toOption.getD [])))) = true
    ∧ (((get_preset PRESETS "development").toOption.getD []).all
        (fun r => !(r.pattern == "**/credentials*"))) = true := by
  refine ⟨rfl, by decide, rfl⟩

/-- C8: registering a fresh preset name succeeds; registering the same name
again fails with the already-exists error (no overwrite), and `get_preset`
on that name still returns the rules built from the first registration. -/
theorem register_preset_no_overwrite (reg : Registry) (name : String)
    (rules rules2 : List RuleDict) (h : List.lookup name reg = Option.none) :
    register_preset reg name rules = Except.ok (reg ++ [(name, rules)])
    ∧ register_preset (reg ++ [(name, rules)]) name rules2
        = Except.error (alreadyExistsMsg name)
    ∧ get_preset (reg ++ [(name, rules)]) name = rulesOfDicts rules := by
  have hl : List.lookup name (reg ++ [(name, rules)]) = some rules := by
    rw [lookup_append_of_none reg _ name h]
    simp [List.lookup]
  refine ⟨?_, ?_, ?_⟩
  · unfold register_preset
    rw [h]
    rfl
  · unfold register_preset
    rw [hl]
    rfl
  · unfold get_preset
    rw [hl]

/-- C8 witness: registering "my-preset" into the built-in table succeeds,
re-registering it fails with the already-exists error, and the first
registration's rules are still returned. -/
theorem register_preset_no_overwrite_witness :
    register_preset PRESETS "my-preset" [⟨"**/*", "read", Option.none, Option.none⟩]
      = Except.ok (PRESETS ++ [("my-preset", [⟨"**/*", "read", Option.none, Option.none⟩])])
    ∧ register_preset
        (PRESETS ++ [("my-preset", [⟨"**/*", "read", Option.none, Option.none⟩])])
        "my-preset" [⟨"**/*", "write", Option.none, Option.none⟩]
      = Except.error (alreadyExistsMsg "my-preset")
    ∧ get_preset (PRESETS ++ [("my-preset", [⟨"**/*", "read", Option.none, Option.none⟩])])
        "my-preset"
      = rulesOfDicts [⟨"**/*", "read", Option.none, Option.none⟩] :=
  register_preset_no_overwrite PRESETS "my-preset"
    [⟨"**/*", "read", Option.none, Option.none⟩]
    [⟨"**/*", "write", Option.none, Option.none⟩] (by decide)

/-- C9: a pattern beginning with `!` normalizes to the empty string and is
skipped by the matcher, so it never causes any path to be ignored or
re-included; parsing an ignore file is total (cannot raise), and dropping
every negated line from a parsed ignore file leaves the matcher's verdict on
every path unchanged. -/
theorem negated_patterns_never_match :
    (∀ p : String, strStartsWith p "!" = true → normalize_pattern p = "")
    ∧ (∀ (path p : String) (ps : List String) (b : Bool),
        strStartsWith p "!" = true →
        should_ignore path (p :: ps) b = should_ignore path ps b)
    ∧ (∀ (lines : List String) (path : String) (b : Bool),
        should_ignore path (parse_ignore_lines lines) b
          = should_ignore path
              ((parse_ignore_lines lines).filter (fun q => !(strStartsWith q "!"))) b) :=
  ⟨normalize_negated, should_ignore_cons_negated,
   fun lines path b => should_ignore_filter_negated path b (parse_ignore_lines lines)⟩

/-- C9 witness: the negated pattern `!foo` normalizes to the empty string
and adding it to a pattern list leaves the matcher's verdict unchanged. -/
theorem negated_patterns_never_match_witness :
    normalize_pattern "!foo" = ""
    ∧ should_ignore "foo" ["!foo", "*.log"] false = should_ignore "foo" ["*.log"] false :=
  ⟨negated_patterns_never_match.1 "!foo" (by decide),
   negated_patterns_never_match.2.1 "foo" "!foo" ["*.log"] false (by decide)⟩

/-- C10: composing never mutates the registry: the global table after
`extend_preset` is the table before it, and both `get_preset` and
`get_preset_dicts` of every name return exactly what they returned before
the call (the composed list is a fresh list built from fresh rule
objects). -/
theorem extend_preset_registry_frame (reg : Registry) (base : String)
    (additions overrides : List RuleInput) (name : String) :
    (extend_preset_global reg base additions overrides).2 = reg
    ∧ get_preset (extend_preset_global reg base additions overrides).2 name
        = get_preset reg name
    ∧ get_preset_dicts (extend_preset_global reg base additions overrides).2 name
        = get_preset_dicts reg name :=
  ⟨rfl, rfl, rfl⟩

end SandboxSDK
